import Mathlib

/-!
A shallow embedding of the RoadArchive facade (src/roadarchive/archive.py).

The facade dispatches on an archive format detected from a file name and
delegates to external container/codec collaborators (zipfile, tarfile, gzip).
Following the design document, the collaborators are assumed correct: an
on-disk archive file is modelled abstractly as the container value it decodes
to (a list of entries for zip/tar, a single payload for gzip), and the
collaborator operations (entry lookup, extraction, write) are modelled by
their documented behaviour on that value.  All facade code below is
translated line by line from archive.py.
-/

set_option autoImplicit false

deriving instance DecidableEq for Except

namespace RoadArchive

/-- A byte string: one natural number per byte. -/
abbrev ByteSeq := List Nat

/-- A file-system path or archive member name, as its character sequence. -/
abbrev Name := List Char

/-- Python str.lower, characterwise. -/
def lower (s : Name) : Name := s.map Char.toLower

/-- Python str.endswith. -/
def endsWith (s suf : Name) : Bool := List.isSuffixOf suf s

/-- Python pathlib division dest / nm. -/
def joinPath (dest nm : Name) : Name := dest ++ ('/' :: nm)

/-- Python pathlib Path.stem: the name without its last suffix.  A dot that
is the first character of the name does not begin a suffix. -/
def stem (nm : Name) : Name :=
  match nm with
  | [] => []
  | c0 :: rest =>
    if rest.contains '.' then
      c0 :: ((rest.reverse.dropWhile (fun c => decide (c ≠ '.'))).drop 1).reverse
    else nm

/-- class ArchiveFormat(str, Enum) of archive.py. -/
inductive ArchiveFormat
  | zip
  | tar
  | tar_gz
  | tar_bz2
  | tar_xz
  | gzip
deriving DecidableEq, Repr

/-- The errors the facade operations can surface: the two ArchiveError
messages raised by archive.py itself, plus the errors propagated unchanged
from the collaborators (KeyError on a missing member, an open failure on a
file that does not decode, an OSError on a vanished build source). -/
inductive ArchiveOpError
  | unknownFormat (nm : Name)
  | cannotRead (nm : Name)
  | keyError (nm : Name)
  | badFile
  | missingSource (p : Name)
deriving DecidableEq, Repr

/-- One member of a zip container as the zipfile collaborator reports it:
ZipInfo metadata together with the (decompressed) stored bytes. -/
structure ZipEntry where
  filename : Name
  file_size : Nat
  compress_size : Nat
  date_time : Nat
  content : ByteSeq
deriving DecidableEq, Repr

/-- ZipInfo.is_dir: the stored name ends with a slash. -/
def ZipEntry.is_dir (e : ZipEntry) : Bool := endsWith e.filename ['/']

/-- The member kinds of a tar container that the facade distinguishes. -/
inductive TarKind
  | regular
  | directory
  | other
deriving DecidableEq, Repr

/-- One member of a tar container as the tarfile collaborator reports it:
TarInfo metadata together with the stored bytes. -/
structure TarInfo where
  name : Name
  size : Nat
  mtime : Nat
  mode : Nat
  kind : TarKind
  content : ByteSeq
deriving DecidableEq, Repr

/-- TarInfo.isfile. -/
def TarInfo.isfile (m : TarInfo) : Bool :=
  match m.kind with
  | TarKind.regular => true
  | _ => false

/-- TarInfo.isdir. -/
def TarInfo.isdir (m : TarInfo) : Bool :=
  match m.kind with
  | TarKind.directory => true
  | _ => false

/-- The outer compression wrapped around a tar container (tarfile mode
selectors "", ":gz", ":bz2", ":xz"). -/
inductive TarComp
  | plain
  | gz
  | bz2
  | xz
deriving DecidableEq, Repr

/-- The decoded value of one on-disk file: a zip container, a tar container
under an outer compression, a plain gzip stream, or an ordinary file. -/
inductive DiskFile
  | zipData (entries : List ZipEntry)
  | tarData (comp : TarComp) (entries : List TarInfo)
  | gzipData (payload : ByteSeq)
  | rawData (content : ByteSeq)
deriving DecidableEq, Repr

/-- The file system: an association list from path to decoded file value,
newest write first. -/
abbrev FS := List (Name × DiskFile)

def fsRead (fs : FS) (p : Name) : Option DiskFile :=
  (fs.find? (fun e => decide (e.1 = p))).map (fun e => e.2)

def fsWrite (fs : FS) (p : Name) (d : DiskFile) : FS := (p, d) :: fs

/-- One file-system effect of an extraction. -/
inductive FsOp
  | mkDir (p : Name)
  | mkFile (p : Name) (content : ByteSeq)
deriving DecidableEq, Repr

/-- Apply one effect.  Directory creation does not change the file map. -/
def applyOp (fs : FS) : FsOp → FS
  | FsOp.mkDir _ => fs
  | FsOp.mkFile p c => fsWrite fs p (DiskFile.rawData c)

def applyOps (fs : FS) (ops : List FsOp) : FS := ops.foldl applyOp fs

/-- Archive: read-side facade.  It owns a path and the format resolved at
construction time. -/
structure Archive where
  path : Name
  format : ArchiveFormat
deriving DecidableEq, Repr

/-- Archive._detect_format: suffix dispatch on the lowercased file name,
raising ArchiveError when nothing matches. -/
def Archive.detect_format (path : Name) : Except ArchiveOpError ArchiveFormat :=
  if endsWith (lower path) ".zip".data then Except.ok ArchiveFormat.zip
  else if endsWith (lower path) ".tar.gz".data || endsWith (lower path) ".tgz".data then
    Except.ok ArchiveFormat.tar_gz
  else if endsWith (lower path) ".tar.bz2".data || endsWith (lower path) ".tbz2".data then
    Except.ok ArchiveFormat.tar_bz2
  else if endsWith (lower path) ".tar.xz".data || endsWith (lower path) ".txz".data then
    Except.ok ArchiveFormat.tar_xz
  else if endsWith (lower path) ".tar".data then Except.ok ArchiveFormat.tar
  else if endsWith (lower path) ".gz".data then Except.ok ArchiveFormat.gzip
  else Except.error (ArchiveOpError.unknownFormat (lower path))

/-- Archive.__init__: store the path and the detected format. -/
def Archive.make (path : Name) : Except ArchiveOpError Archive :=
  (Archive.detect_format path).map (fun f => { path := path, format := f })

/-- The tar variants, i.e. the formats of the tarfile branch of list,
extract and read. -/
def isTarFormat (f : ArchiveFormat) : Bool :=
  match f with
  | ArchiveFormat.tar => true
  | ArchiveFormat.tar_gz => true
  | ArchiveFormat.tar_bz2 => true
  | ArchiveFormat.tar_xz => true
  | _ => false

/-- A tarfile read mode: "r" reads any compression transparently, while
"r:gz" and friends insist on one compression. -/
inductive TarReadMode
  | transparent
  | exact (c : TarComp)
deriving DecidableEq, Repr

/-- Archive._tar_mode with base "r". -/
def Archive.tar_mode (fmt : ArchiveFormat) : TarReadMode :=
  match fmt with
  | ArchiveFormat.tar_gz => TarReadMode.exact TarComp.gz
  | ArchiveFormat.tar_bz2 => TarReadMode.exact TarComp.bz2
  | ArchiveFormat.tar_xz => TarReadMode.exact TarComp.xz
  | _ => TarReadMode.transparent

/-- zipfile.ZipFile(path, "r"): succeeds exactly on a zip container. -/
def zipOpenRead (disk : DiskFile) : Except ArchiveOpError (List ZipEntry) :=
  match disk with
  | DiskFile.zipData es => Except.ok es
  | _ => Except.error ArchiveOpError.badFile

/-- tarfile.open(path, mode): succeeds on a tar container whose outer
compression the mode accepts. -/
def tarOpenRead (mode : TarReadMode) (disk : DiskFile) : Except ArchiveOpError (List TarInfo) :=
  match disk with
  | DiskFile.tarData c es =>
    match mode with
    | TarReadMode.transparent => Except.ok es
    | TarReadMode.exact c0 => if c = c0 then Except.ok es else Except.error ArchiveOpError.badFile
  | _ => Except.error ArchiveOpError.badFile

/-- The member lookup shared by zipfile (NameToInfo) and tarfile
(getmember): the LAST entry bearing the requested name, if any. -/
def lastMatching {α : Type} (key : α → Name) (es : List α) (nm : Name) : Option α :=
  (es.filter (fun e => decide (key e = nm))).getLast?

/-- ZipFile.getinfo via the NameToInfo dictionary (later entries shadow
earlier ones). -/
def zipGetinfo (es : List ZipEntry) (nm : Name) : Option ZipEntry :=
  lastMatching ZipEntry.filename es nm

/-- TarFile.getmember (the last occurrence is the most up to date). -/
def tarGetmember (es : List TarInfo) (nm : Name) : Option TarInfo :=
  lastMatching TarInfo.name es nm

/-- dataclass ArchiveEntry of archive.py. -/
structure ArchiveEntry where
  name : Name
  size : Nat
  compressed_size : Nat
  modified : Option Nat
  is_dir : Bool
  is_file : Bool
  mode : Nat
deriving DecidableEq, Repr

/-- Archive.list. -/
def Archive.list (a : Archive) (disk : DiskFile) : Except ArchiveOpError (List ArchiveEntry) :=
  if a.format = ArchiveFormat.zip then
    match zipOpenRead disk with
    | Except.error e => Except.error e
    | Except.ok infos =>
      Except.ok (infos.map (fun i =>
        { name := i.filename, size := i.file_size, compressed_size := i.compress_size,
          modified := some i.date_time, is_dir := i.is_dir, is_file := !i.is_dir, mode := 0 }))
  else if isTarFormat a.format then
    match tarOpenRead (Archive.tar_mode a.format) disk with
    | Except.error e => Except.error e
    | Except.ok infos =>
      Except.ok (infos.map (fun i =>
        { name := i.name, size := i.size, compressed_size := 0,
          modified := some i.mtime, is_dir := i.isdir, is_file := i.isfile, mode := i.mode }))
  else Except.ok []

/-- Archive.read.  The zip branch is ZipFile.read (KeyError when absent,
stored bytes when found); the tar branch is getmember (KeyError when
absent) then extractfile, falling through to the ArchiveError
"Cannot read" when extractfile yields nothing; every other format falls
through to the same ArchiveError. -/
def Archive.read (a : Archive) (disk : DiskFile) (nm : Name) : Except ArchiveOpError ByteSeq :=
  if a.format = ArchiveFormat.zip then
    match zipOpenRead disk with
    | Except.error e => Except.error e
    | Except.ok es =>
      match zipGetinfo es nm with
      | Option.none => Except.error (ArchiveOpError.keyError nm)
      | some e => Except.ok e.content
  else if isTarFormat a.format then
    match tarOpenRead (Archive.tar_mode a.format) disk with
    | Except.error e => Except.error e
    | Except.ok es =>
      match tarGetmember es nm with
      | Option.none => Except.error (ArchiveOpError.keyError nm)
      | some m => if m.isfile then Except.ok m.content else Except.error (ArchiveOpError.cannotRead nm)
  else Except.error (ArchiveOpError.cannotRead nm)

/-- Python truthiness of the optional members argument of Archive.extract:
None and the empty list are both falsy. -/
def pyTruthy (members : Option (List Name)) : Bool :=
  match members with
  | some l => !l.isEmpty
  | Option.none => false

/-- The effect of ZipFile.extract(m, dest) once the member is found. -/
def zipMemberOp (dest : Name) (m : Name) (e : ZipEntry) : FsOp :=
  if e.is_dir then FsOp.mkDir (joinPath dest m) else FsOp.mkFile (joinPath dest m) e.content

/-- The effect of TarFile.extract(m, dest) once the member is found.
Non-regular, non-directory members (links, devices) produce no plain file
and are folded into the directory case. -/
def tarMemberOp (dest : Name) (m : Name) (e : TarInfo) : FsOp :=
  match e.kind with
  | TarKind.regular => FsOp.mkFile (joinPath dest m) e.content
  | _ => FsOp.mkDir (joinPath dest m)

/-- The member loop of Archive.extract: for each requested name, look the
member up (KeyError aborts the call, discarding the collected result list)
and extract it, appending dest / m to the results. -/
def extractLoop {α : Type} (getm : Name → Option α) (toOp : Name → α → FsOp) (dest : Name) :
    List Name → Except ArchiveOpError (List Name) × List FsOp
  | [] => (Except.ok [], [])
  | m :: rest =>
    match getm m with
    | Option.none => (Except.error (ArchiveOpError.keyError m), [])
    | some e =>
      match extractLoop getm toOp dest rest with
      | (Except.ok ps, ops) => (Except.ok (joinPath dest m :: ps), toOp m e :: ops)
      | (Except.error err, ops) => (Except.error err, toOp m e :: ops)

/-- ZipFile.extractall(dest) plus the result list built from namelist(). -/
def zipExtractAll (es : List ZipEntry) (dest : Name) : List Name × List FsOp :=
  (es.map (fun e => joinPath dest e.filename), es.map (fun e => zipMemberOp dest e.filename e))

/-- TarFile.extractall(dest) plus the result list built from getmembers(). -/
def tarExtractAll (es : List TarInfo) (dest : Name) : List Name × List FsOp :=
  (es.map (fun e => joinPath dest e.name), es.map (fun e => tarMemberOp dest e.name e))

/-- Archive.extract.  Returns the result list (or the propagated error)
together with the file-system effects in order: the destination directory
is created first, then members are written.  The gzip branch ignores the
members argument and decompresses the single stream to dest / stem. -/
def Archive.extract (a : Archive) (disk : DiskFile) (dest : Name)
    (members : Option (List Name)) :
    Except ArchiveOpError (List Name) × List FsOp :=
  if a.format = ArchiveFormat.zip then
    match zipOpenRead disk with
    | Except.error e => (Except.error e, [FsOp.mkDir dest])
    | Except.ok es =>
      if pyTruthy members then
        let r := extractLoop (zipGetinfo es) (zipMemberOp dest) dest (members.getD [])
        (r.1, FsOp.mkDir dest :: r.2)
      else
        let r := zipExtractAll es dest
        (Except.ok r.1, FsOp.mkDir dest :: r.2)
  else if isTarFormat a.format then
    match tarOpenRead (Archive.tar_mode a.format) disk with
    | Except.error e => (Except.error e, [FsOp.mkDir dest])
    | Except.ok es =>
      if pyTruthy members then
        let r := extractLoop (tarGetmember es) (tarMemberOp dest) dest (members.getD [])
        (r.1, FsOp.mkDir dest :: r.2)
      else
        let r := tarExtractAll es dest
        (Except.ok r.1, FsOp.mkDir dest :: r.2)
  else if a.format = ArchiveFormat.gzip then
    match disk with
    | DiskFile.gzipData payload =>
      (Except.ok [joinPath dest (stem a.path)],
       [FsOp.mkDir dest, FsOp.mkFile (joinPath dest (stem a.path)) payload])
    | _ => (Except.error ArchiveOpError.badFile, [FsOp.mkDir dest])
  else (Except.ok [], [FsOp.mkDir dest])

/-- One pending addition of an ArchiveBuilder (the _files list): either an
in-memory payload from add_bytes or a source path from add_file. -/
inductive BuildSrc
  | fromBytes (data : ByteSeq) (arcname : Name)
  | fromFile (src : Name) (arcname : Name)
deriving DecidableEq, Repr

/-- ArchiveBuilder: write-side facade. -/
structure ArchiveBuilder where
  path : Name
  format : ArchiveFormat
  files : List BuildSrc
deriving DecidableEq, Repr

/-- ArchiveBuilder._detect_format: like the read side but with fewer
patterns (no .tbz2, no .txz, no .gz) and a zip default instead of an
error. -/
def ArchiveBuilder.detect_format (path : Name) : ArchiveFormat :=
  if endsWith (lower path) ".zip".data then ArchiveFormat.zip
  else if endsWith (lower path) ".tar.gz".data || endsWith (lower path) ".tgz".data then
    ArchiveFormat.tar_gz
  else if endsWith (lower path) ".tar.bz2".data then ArchiveFormat.tar_bz2
  else if endsWith (lower path) ".tar.xz".data then ArchiveFormat.tar_xz
  else if endsWith (lower path) ".tar".data then ArchiveFormat.tar
  else ArchiveFormat.zip

/-- ArchiveBuilder.__init__ with an optional explicit format. -/
def ArchiveBuilder.make (path : Name) (format : Option ArchiveFormat) : ArchiveBuilder :=
  { path := path, format := format.getD (ArchiveBuilder.detect_format path), files := [] }

/-- ArchiveBuilder.add_bytes. -/
def ArchiveBuilder.add_bytes (b : ArchiveBuilder) (data : ByteSeq) (arcname : Name) :
    ArchiveBuilder :=
  { b with files := b.files ++ [BuildSrc.fromBytes data arcname] }

/-- ArchiveBuilder.add_file.  Paths are modelled flat, so the default
arcname (the source base name) is the source path itself. -/
def ArchiveBuilder.add_file (b : ArchiveBuilder) (src : Name) (arcname : Option Name) :
    ArchiveBuilder :=
  { b with files := b.files ++ [BuildSrc.fromFile src (arcname.getD src)] }

/-- Size of the deflate-compressed form of a payload.  The deflate codec is
an external collaborator (design section 1); the facade only stores its
output size, so it is modelled as the input length. -/
def deflateSize (b : ByteSeq) : Nat := b.length

/-- The zip branch of ArchiveBuilder.build: writestr for byte payloads,
write for source files (reading the source, failing if it has vanished).
Entries are written in queued order; writestr stamps the current time. -/
def zipWriteEntries (fs : FS) (now : Nat) : List BuildSrc → Except ArchiveOpError (List ZipEntry)
  | [] => Except.ok []
  | BuildSrc.fromBytes data arcname :: rest =>
    (zipWriteEntries fs now rest).map
      (fun es => { filename := arcname, file_size := data.length,
                   compress_size := deflateSize data, date_time := now, content := data } :: es)
  | BuildSrc.fromFile src arcname :: rest =>
    match fsRead fs src with
    | some (DiskFile.rawData content) =>
      (zipWriteEntries fs now rest).map
        (fun es => { filename := arcname, file_size := content.length,
                     compress_size := deflateSize content, date_time := now, content := content } :: es)
    | _ => Except.error (ArchiveOpError.missingSource src)

/-- The tar branch of ArchiveBuilder.build: addfile on a fresh TarInfo for
byte payloads (TarInfo defaults: mtime 0, mode 420, regular), add for
source files (stat supplies mtime; the default regular mode is kept). -/
def tarWriteEntries (fs : FS) (now : Nat) : List BuildSrc → Except ArchiveOpError (List TarInfo)
  | [] => Except.ok []
  | BuildSrc.fromBytes data arcname :: rest =>
    (tarWriteEntries fs now rest).map
      (fun es => { name := arcname, size := data.length, mtime := 0,
                   mode := 420, kind := TarKind.regular, content := data } :: es)
  | BuildSrc.fromFile src arcname :: rest =>
    match fsRead fs src with
    | some (DiskFile.rawData content) =>
      (tarWriteEntries fs now rest).map
        (fun es => { name := arcname, size := content.length, mtime := now,
                     mode := 420, kind := TarKind.regular, content := content } :: es)
    | _ => Except.error (ArchiveOpError.missingSource src)

/-- The write mode of the non-zip branch of build: "w" unless the format
is one of the three compressed tar variants.  In particular the GZIP
format falls through to the uncompressed "w". -/
def ArchiveBuilder.buildComp (fmt : ArchiveFormat) : TarComp :=
  match fmt with
  | ArchiveFormat.tar_gz => TarComp.gz
  | ArchiveFormat.tar_bz2 => TarComp.bz2
  | ArchiveFormat.tar_xz => TarComp.xz
  | _ => TarComp.plain

/-- ArchiveBuilder.build: write the container at the target path, then
construct (and return) an Archive over that path, which re-detects the
format from the path name and may fail.  A build whose queued source files
cannot all be read fails; the partial archive such a failure leaves on
disk in Python is not modelled, since no claim exercises it. -/
def ArchiveBuilder.build (b : ArchiveBuilder) (fs : FS) (now : Nat) :
    FS × Except ArchiveOpError Archive :=
  if b.format = ArchiveFormat.zip then
    match zipWriteEntries fs now b.files with
    | Except.error e => (fs, Except.error e)
    | Except.ok es => (fsWrite fs b.path (DiskFile.zipData es), Archive.make b.path)
  else
    match tarWriteEntries fs now b.files with
    | Except.error e => (fs, Except.error e)
    | Except.ok es =>
      (fsWrite fs b.path (DiskFile.tarData (ArchiveBuilder.buildComp b.format) es),
       Archive.make b.path)

/-- A name matches a row of a suffix table when it ends with one of the
row patterns. -/
def matchesAny (nm : Name) (pats : List Name) : Bool :=
  pats.any (fun p => endsWith nm p)

/-- The read-side suffix table exactly as design section 4.1 words it, in
precedence order. -/
def FormatDetector_table : List (List Name × ArchiveFormat) :=
  [([".zip".data], ArchiveFormat.zip),
   ([".tar.gz".data, ".tgz".data], ArchiveFormat.tar_gz),
   ([".tar.bz2".data, ".tbz2".data], ArchiveFormat.tar_bz2),
   ([".tar.xz".data, ".txz".data], ArchiveFormat.tar_xz),
   ([".tar".data], ArchiveFormat.tar),
   ([".gz".data], ArchiveFormat.gzip)]

/-- The read-side detector following the words of the spec: lowercase the
name, take the first matching row of the table, fail with the
unrecognized-format error when no row matches. -/
def FormatDetector_spec (path : Name) : Except ArchiveOpError ArchiveFormat :=
  match FormatDetector_table.find? (fun row => matchesAny (lower path) row.1) with
  | some row => Except.ok row.2
  | Option.none => Except.error (ArchiveOpError.unknownFormat (lower path))

/-- The write-side suffix table the builder actually implements: the rows
for .tbz2, .txz and .gz of the read-side table are absent. -/
def BuilderDetector_table : List (List Name × ArchiveFormat) :=
  [([".zip".data], ArchiveFormat.zip),
   ([".tar.gz".data, ".tgz".data], ArchiveFormat.tar_gz),
   ([".tar.bz2".data], ArchiveFormat.tar_bz2),
   ([".tar.xz".data], ArchiveFormat.tar_xz),
   ([".tar".data], ArchiveFormat.tar)]

/-- The write-side detector in table form: first matching row of the
write-side table, defaulting to zip. -/
def BuilderDetector_spec (path : Name) : ArchiveFormat :=
  match BuilderDetector_table.find? (fun row => matchesAny (lower path) row.1) with
  | some row => row.2
  | Option.none => ArchiveFormat.zip

/-- The names under which members of a container archive are reachable
(the lookup keys of getinfo and getmember); nothing for gzip. -/
def diskMemberNames (a : Archive) (disk : DiskFile) : Option (List Name) :=
  if a.format = ArchiveFormat.zip then
    match disk with
    | DiskFile.zipData es => some (es.map ZipEntry.filename)
    | _ => Option.none
  else if isTarFormat a.format then
    match tarOpenRead (Archive.tar_mode a.format) disk with
    | Except.ok es => some (es.map TarInfo.name)
    | Except.error _ => Option.none
  else Option.none

/-- The zip entry that ArchiveBuilder.build writes for one queued byte
payload (writestr): sizes from the payload, timestamp from the clock. -/
def zipBuiltEntry (now : Nat) (p : ByteSeq × Name) : ZipEntry :=
  { filename := p.2, file_size := p.1.length, compress_size := deflateSize p.1,
    date_time := now, content := p.1 }

/-- The tar member that ArchiveBuilder.build writes for one queued byte
payload (addfile on a fresh TarInfo with only name and size set). -/
def tarBuiltEntry (p : ByteSeq × Name) : TarInfo :=
  { name := p.2, size := p.1.length, mtime := 0, mode := 420,
    kind := TarKind.regular, content := p.1 }

/-- The round-trip property of claim C1 for one builder and its queued
payloads: build succeeds, the built file is on disk, list succeeds with
the payload names and sizes in order, and read returns each payload. -/
def RoundTrip (b : ArchiveBuilder) (payloads : List (ByteSeq × Name)) (fs : FS) (now : Nat) : Prop :=
  ∃ (a : Archive) (disk : DiskFile) (es : List ArchiveEntry),
    (b.build fs now).2 = Except.ok a ∧
    fsRead (b.build fs now).1 a.path = some disk ∧
    a.list disk = Except.ok es ∧
    es.map ArchiveEntry.name = payloads.map Prod.snd ∧
    es.map ArchiveEntry.size = payloads.map (fun p => p.1.length) ∧
    ∀ p ∈ payloads, a.read disk p.2 = Except.ok p.1

/-! ## Helper lemmas -/

lemma detect_format_eq_spec (path : Name) :
    Archive.detect_format path = FormatDetector_spec path := by
  unfold Archive.detect_format FormatDetector_spec FormatDetector_table matchesAny
  split_ifs <;> simp_all [List.find?, List.any, -Bool.or_eq_true]

lemma builder_detect_eq_spec (path : Name) :
    ArchiveBuilder.detect_format path = BuilderDetector_spec path := by
  unfold ArchiveBuilder.detect_format BuilderDetector_spec BuilderDetector_table matchesAny
  split_ifs <;> simp_all [List.find?, List.any, -Bool.or_eq_true]

/-- When read-side detection fails, none of the write-side patterns can
match either (they are a subset), so the builder falls back to zip. -/
lemma builder_detect_eq_zip_of_read_error (path : Name) (e : ArchiveOpError)
    (h : Archive.detect_format path = Except.error e) :
    ArchiveBuilder.detect_format path = ArchiveFormat.zip := by
  unfold Archive.detect_format at h
  unfold ArchiveBuilder.detect_format
  split_ifs at h ⊢ <;> simp_all

lemma lastMatching_eq_none {α : Type} (key : α → Name) (es : List α) (nm : Name)
    (h : ∀ e ∈ es, key e ≠ nm) : lastMatching key es nm = Option.none := by
  unfold lastMatching
  have hfil : es.filter (fun e => decide (key e = nm)) = [] := by
    apply List.filter_eq_nil_iff.mpr
    intro e he
    simp [h e he]
  rw [hfil]
  rfl

/-- The last-occurrence lookup finds the unique entry when keys are
pairwise distinct. -/
lemma lastMatching_mem_of_nodup {α : Type} (key : α → Name) (es : List α)
    (hnd : (es.map key).Nodup) (e : α) (he : e ∈ es) :
    lastMatching key es (key e) = some e := by
  induction es with
  | nil => cases he
  | cons a tl ih =>
    rw [List.map_cons, List.nodup_cons] at hnd
    rcases List.mem_cons.mp he with rfl | he2
    · have hfil : tl.filter (fun x => decide (key x = key e)) = [] := by
        apply List.filter_eq_nil_iff.mpr
        intro x hx
        simp only [decide_eq_true_eq]
        intro hk
        apply hnd.1
        rw [← hk]
        exact List.mem_map_of_mem key hx
      unfold lastMatching
      rw [List.filter_cons]
      simp [hfil]
    · have hne : (decide (key a = key e)) = false := by
        simp only [decide_eq_false_iff_not]
        intro hk
        apply hnd.1
        rw [hk]
        exact List.mem_map_of_mem key he2
      have hrec := ih hnd.2 he2
      unfold lastMatching at hrec ⊢
      rw [List.filter_cons, if_neg (by simp [hne])]
      exact hrec

lemma fsRead_fsWrite_self (fs : FS) (p : Name) (d : DiskFile) :
    fsRead (fsWrite fs p d) p = some d := by
  simp [fsRead, fsWrite, List.find?]

lemma fsRead_fsWrite_ne (fs : FS) (p q : Name) (d : DiskFile) (h : p ≠ q) :
    fsRead (fsWrite fs p d) q = fsRead fs q := by
  simp [fsRead, fsWrite, List.find?, h]

/-- Effects that never write a plain file at q leave the file at q
unchanged. -/
lemma fsRead_applyOps_of_no_write (ops : List FsOp) (q : Name) :
    (∀ p c, FsOp.mkFile p c ∈ ops → p ≠ q) →
    ∀ fs : FS, fsRead (applyOps fs ops) q = fsRead fs q := by
  induction ops with
  | nil => intro _ fs; rfl
  | cons op rest ih =>
    intro h fs
    have hrest : ∀ p c, FsOp.mkFile p c ∈ rest → p ≠ q :=
      fun p c hc => h p c (List.mem_cons_of_mem _ hc)
    cases op with
    | mkDir p =>
      simp only [applyOps, List.foldl_cons, applyOp]
      exact ih hrest fs
    | mkFile p c =>
      simp only [applyOps, List.foldl_cons, applyOp]
      have hstep := ih hrest (fsWrite fs p (DiskFile.rawData c))
      simp only [applyOps] at hstep
      rw [hstep]
      exact fsRead_fsWrite_ne fs p q _ (h p c (List.mem_cons_self _ _))

lemma joinPath_inj (dest m m' : Name) (h : joinPath dest m = joinPath dest m') : m = m' := by
  unfold joinPath at h
  have h2 := List.append_cancel_left h
  exact List.cons_injective h2

lemma joinPath_ne_dest (dest m : Name) : joinPath dest m ≠ dest := by
  intro h
  have hlen := congrArg List.length h
  simp [joinPath] at hlen

/-- Folding add_bytes queues the payloads in order after the existing
queue, leaving path and format unchanged. -/
lemma foldl_add_bytes (payloads : List (ByteSeq × Name)) :
    ∀ b0 : ArchiveBuilder,
      payloads.foldl (fun acc p => acc.add_bytes p.1 p.2) b0 =
        { path := b0.path, format := b0.format,
          files := b0.files ++ payloads.map (fun p => BuildSrc.fromBytes p.1 p.2) } := by
  induction payloads with
  | nil => intro b0; simp
  | cons p rest ih =>
    intro b0
    simp only [List.foldl_cons, List.map_cons]
    rw [ih]
    simp [ArchiveBuilder.add_bytes]

lemma zipWriteEntries_bytes (fs : FS) (now : Nat) (payloads : List (ByteSeq × Name)) :
    zipWriteEntries fs now (payloads.map (fun p => BuildSrc.fromBytes p.1 p.2)) =
      Except.ok (payloads.map (zipBuiltEntry now)) := by
  induction payloads with
  | nil => rfl
  | cons p rest ih => simp [zipWriteEntries, ih, Except.map, zipBuiltEntry]

lemma tarWriteEntries_bytes (fs : FS) (now : Nat) (payloads : List (ByteSeq × Name)) :
    tarWriteEntries fs now (payloads.map (fun p => BuildSrc.fromBytes p.1 p.2)) =
      Except.ok (payloads.map tarBuiltEntry) := by
  induction payloads with
  | nil => rfl
  | cons p rest ih => simp [tarWriteEntries, ih, Except.map, tarBuiltEntry]

/-- Reading back the container that build wrote always succeeds: the mode
_tar_mode chooses for a format accepts the compression build chose for
that same format. -/
lemma tarOpenRead_build (fmt : ArchiveFormat) (es : List TarInfo) :
    tarOpenRead (Archive.tar_mode fmt) (DiskFile.tarData (ArchiveBuilder.buildComp fmt) es) =
      Except.ok es := by
  cases fmt <;> rfl

lemma map_filename_built (now : Nat) (payloads : List (ByteSeq × Name)) :
    (payloads.map (zipBuiltEntry now)).map ZipEntry.filename = payloads.map Prod.snd := by
  simp [List.map_map, zipBuiltEntry, Function.comp]

lemma map_name_built (payloads : List (ByteSeq × Name)) :
    (payloads.map tarBuiltEntry).map TarInfo.name = payloads.map Prod.snd := by
  simp [List.map_map, tarBuiltEntry, Function.comp]

lemma zipGetinfo_built (now : Nat) (payloads : List (ByteSeq × Name))
    (hnd : (payloads.map Prod.snd).Nodup) (p : ByteSeq × Name) (hp : p ∈ payloads) :
    zipGetinfo (payloads.map (zipBuiltEntry now)) p.2 = some (zipBuiltEntry now p) := by
  have h := lastMatching_mem_of_nodup ZipEntry.filename (payloads.map (zipBuiltEntry now))
    (by rw [map_filename_built]; exact hnd) (zipBuiltEntry now p) (List.mem_map_of_mem _ hp)
  simpa [zipGetinfo, zipBuiltEntry] using h

lemma tarGetmember_built (payloads : List (ByteSeq × Name))
    (hnd : (payloads.map Prod.snd).Nodup) (p : ByteSeq × Name) (hp : p ∈ payloads) :
    tarGetmember (payloads.map tarBuiltEntry) p.2 = some (tarBuiltEntry p) := by
  have h := lastMatching_mem_of_nodup TarInfo.name (payloads.map tarBuiltEntry)
    (by rw [map_name_built]; exact hnd) (tarBuiltEntry p) (List.mem_map_of_mem _ hp)
  simpa [tarGetmember, tarBuiltEntry] using h

/-- The zip half of the round trip. -/
lemma roundtrip_case_zip (path : Name) (payloads : List (ByteSeq × Name)) (fs : FS) (now : Nat)
    (hdet : Archive.detect_format path = Except.ok ArchiveFormat.zip)
    (hnd : (payloads.map Prod.snd).Nodup) :
    RoundTrip { path := path, format := ArchiveFormat.zip,
                files := payloads.map (fun p => BuildSrc.fromBytes p.1 p.2) } payloads fs now := by
  refine ⟨{ path := path, format := ArchiveFormat.zip },
    DiskFile.zipData (payloads.map (zipBuiltEntry now)),
    (payloads.map (zipBuiltEntry now)).map (fun i =>
      { name := i.filename, size := i.file_size, compressed_size := i.compress_size,
        modified := some i.date_time, is_dir := i.is_dir, is_file := !i.is_dir, mode := 0 }),
    ?_, ?_, ?_, ?_, ?_, ?_⟩
  · simp [ArchiveBuilder.build, zipWriteEntries_bytes, Archive.make, hdet, Except.map]
  · simp [ArchiveBuilder.build, zipWriteEntries_bytes, fsRead_fsWrite_self]
  · simp [Archive.list, zipOpenRead]
  · simp [List.map_map, zipBuiltEntry, Function.comp]
  · simp [List.map_map, zipBuiltEntry, Function.comp]
  · intro p hp
    simp [Archive.read, zipOpenRead, zipGetinfo_built now payloads hnd p hp, zipBuiltEntry]

/-- The tar half of the round trip, uniform in the four tar variants. -/
lemma roundtrip_case_tar (path : Name) (fmt : ArchiveFormat)
    (payloads : List (ByteSeq × Name)) (fs : FS) (now : Nat)
    (ht : isTarFormat fmt = true)
    (hdet : Archive.detect_format path = Except.ok fmt)
    (hnd : (payloads.map Prod.snd).Nodup) :
    RoundTrip { path := path, format := fmt,
                files := payloads.map (fun p => BuildSrc.fromBytes p.1 p.2) } payloads fs now := by
  have hnz : fmt ≠ ArchiveFormat.zip := by
    intro h
    rw [h] at ht
    simp [isTarFormat] at ht
  refine ⟨{ path := path, format := fmt },
    DiskFile.tarData (ArchiveBuilder.buildComp fmt) (payloads.map tarBuiltEntry),
    (payloads.map tarBuiltEntry).map (fun i =>
      { name := i.name, size := i.size, compressed_size := 0,
        modified := some i.mtime, is_dir := i.isdir, is_file := i.isfile, mode := i.mode }),
    ?_, ?_, ?_, ?_, ?_, ?_⟩
  · simp [ArchiveBuilder.build, hnz, tarWriteEntries_bytes, Archive.make, hdet, Except.map]
  · simp [ArchiveBuilder.build, hnz, tarWriteEntries_bytes, fsRead_fsWrite_self]
  · simp [Archive.list, hnz, ht, tarOpenRead_build]
  · simp [List.map_map, tarBuiltEntry, Function.comp]
  · simp [List.map_map, tarBuiltEntry, Function.comp]
  · intro p hp
    simp [Archive.read, hnz, ht, tarOpenRead_build, tarGetmember_built payloads hnd p hp,
      tarBuiltEntry, TarInfo.isfile]

/-- A missing requested member makes the extraction loop fail with some
member-not-found error. -/
lemma extractLoop_error_of_missing {α : Type} (getm : Name → Option α) (toOp : Name → α → FsOp)
    (dest : Name) (ms : List Name) (nm : Name)
    (hmem : nm ∈ ms) (hmiss : getm nm = Option.none) :
    ∃ m, (extractLoop getm toOp dest ms).1 = Except.error (ArchiveOpError.keyError m) ∧
      getm m = Option.none := by
  induction ms with
  | nil => cases hmem
  | cons m rest ih =>
    rcases List.mem_cons.mp hmem with rfl | hmem2
    · refine ⟨nm, ?_, hmiss⟩
      unfold extractLoop
      rw [hmiss]
    · cases hg : getm m with
      | none =>
        refine ⟨m, ?_, hg⟩
        unfold extractLoop
        rw [hg]
      | some e =>
        obtain ⟨m1, hres, hm1⟩ := ih hmem2
        refine ⟨m1, ?_, hm1⟩
        unfold extractLoop
        rw [hg]
        cases hrec : extractLoop getm toOp dest rest with
        | mk res ops =>
          rw [hrec] at hres
          cases res with
          | ok ps => simp at hres
          | error err =>
            simp at hres
            simp [hres]

/-- Every effect of the extraction loop belongs to some requested member
that was found. -/
lemma extractLoop_ops {α : Type} (getm : Name → Option α) (toOp : Name → α → FsOp)
    (dest : Name) (ms : List Name) :
    ∀ op ∈ (extractLoop getm toOp dest ms).2,
      ∃ m e, m ∈ ms ∧ getm m = some e ∧ op = toOp m e := by
  induction ms with
  | nil => intro op h; simp [extractLoop] at h
  | cons m rest ih =>
    intro op hop
    unfold extractLoop at hop
    cases hg : getm m with
    | none => rw [hg] at hop; simp at hop
    | some e =>
      rw [hg] at hop
      cases hrec : extractLoop getm toOp dest rest with
      | mk res ops =>
        rw [hrec] at hop
        cases res with
        | ok ps =>
          simp only [List.mem_cons] at hop
          rcases hop with rfl | hop2
          · exact ⟨m, e, List.mem_cons_self _ _, hg, rfl⟩
          · obtain ⟨m1, e1, hm1, hg1, heq⟩ := ih op (by rw [hrec]; exact hop2)
            exact ⟨m1, e1, List.mem_cons_of_mem _ hm1, hg1, heq⟩
        | error err =>
          simp only [List.mem_cons] at hop
          rcases hop with rfl | hop2
          · exact ⟨m, e, List.mem_cons_self _ _, hg, rfl⟩
          · obtain ⟨m1, e1, hm1, hg1, heq⟩ := ih op (by rw [hrec]; exact hop2)
            exact ⟨m1, e1, List.mem_cons_of_mem _ hm1, hg1, heq⟩

/-! ## Claims -/

/-- C1 (amended): queueing byte payloads with pairwise-distinct names via
add_bytes on a builder whose (container) format agrees with the read-side
detection of its target path, and committing with build, round-trips:
list yields the payload names in queued order with the payload lengths as
sizes, and read returns each payload unchanged.  (As literally stated the
claim fails for duplicate names, for the gzip format, and for a format
disagreeing with the path suffix; see the counterexample.) -/
theorem C1_build_list_read_roundtrip (path : Name) (fmt : ArchiveFormat)
    (payloads : List (ByteSeq × Name)) (fs : FS) (now : Nat)
    (hfmt : fmt ≠ ArchiveFormat.gzip)
    (hdet : Archive.detect_format path = Except.ok fmt)
    (hnd : (payloads.map Prod.snd).Nodup) :
    RoundTrip (payloads.foldl (fun acc p => acc.add_bytes p.1 p.2)
      (ArchiveBuilder.make path (some fmt))) payloads fs now := by
  rw [foldl_add_bytes]
  have hmk : ArchiveBuilder.make path (some fmt) =
      { path := path, format := fmt, files := ([] : List BuildSrc) } := rfl
  rw [hmk]
  simp only [List.nil_append]
  cases fmt with
  | zip => exact roundtrip_case_zip path payloads fs now hdet hnd
  | gzip => exact absurd rfl hfmt
  | tar => exact roundtrip_case_tar path ArchiveFormat.tar payloads fs now rfl hdet hnd
  | tar_gz => exact roundtrip_case_tar path ArchiveFormat.tar_gz payloads fs now rfl hdet hnd
  | tar_bz2 => exact roundtrip_case_tar path ArchiveFormat.tar_bz2 payloads fs now rfl hdet hnd
  | tar_xz => exact roundtrip_case_tar path ArchiveFormat.tar_xz payloads fs now rfl hdet hnd

/-- C1, counterexample to the literal claim.  Three end-to-end scenarios:
(A) a builder with the explicit gzip format writes a plain tar, build
returns a gzip-format Archive, and list yields no entries although one
payload was queued; (B) two payloads queued under the same name: read
returns the LAST payload, not the first; (C) a builder whose explicit tar
format disagrees with its .zip path: list on the resulting Archive fails
outright. -/
theorem C1_roundtrip_counterexample :
    (let r := ((ArchiveBuilder.make "out.gz".data
        (some ArchiveFormat.gzip)).add_bytes [1] "a".data).build [] 0
     r.2 = Except.ok { path := "out.gz".data, format := ArchiveFormat.gzip } ∧
     fsRead r.1 "out.gz".data =
       some (DiskFile.tarData TarComp.plain [tarBuiltEntry ([1], "a".data)]) ∧
     Archive.list { path := "out.gz".data, format := ArchiveFormat.gzip }
       (DiskFile.tarData TarComp.plain [tarBuiltEntry ([1], "a".data)]) = Except.ok []) ∧
    (let r := (((ArchiveBuilder.make "o.zip".data Option.none).add_bytes [0]
        "a".data).add_bytes [1] "a".data).build [] 0
     r.2 = Except.ok { path := "o.zip".data, format := ArchiveFormat.zip } ∧
     fsRead r.1 "o.zip".data =
       some (DiskFile.zipData [zipBuiltEntry 0 ([0], "a".data), zipBuiltEntry 0 ([1], "a".data)]) ∧
     Archive.read { path := "o.zip".data, format := ArchiveFormat.zip }
       (DiskFile.zipData [zipBuiltEntry 0 ([0], "a".data), zipBuiltEntry 0 ([1], "a".data)])
       "a".data = Except.ok [1]) ∧
    (let r := ((ArchiveBuilder.make "a.zip".data
        (some ArchiveFormat.tar)).add_bytes [1] "x".data).build [] 0
     r.2 = Except.ok { path := "a.zip".data, format := ArchiveFormat.zip } ∧
     fsRead r.1 "a.zip".data =
       some (DiskFile.tarData TarComp.plain [tarBuiltEntry ([1], "x".data)]) ∧
     Archive.list { path := "a.zip".data, format := ArchiveFormat.zip }
       (DiskFile.tarData TarComp.plain [tarBuiltEntry ([1], "x".data)]) =
       Except.error ArchiveOpError.badFile) := by
  decide

/-- C1, witness: the amended round trip at a concrete two-payload zip. -/
theorem C1_roundtrip_witness :
    RoundTrip ([(([104, 105] : ByteSeq), "a.txt".data), ([5], "b.txt".data)].foldl
      (fun acc p => acc.add_bytes p.1 p.2)
      (ArchiveBuilder.make "out.zip".data (some ArchiveFormat.zip)))
      [([104, 105], "a.txt".data), ([5], "b.txt".data)] [] 0 :=
  C1_build_list_read_roundtrip "out.zip".data ArchiveFormat.zip
    [([104, 105], "a.txt".data), ([5], "b.txt".data)] [] 0
    (by decide) (by decide) (by decide)

/-- C2: read-side format detection is exactly the spec table: suffixes
matched case-insensitively in the precedence order .zip; .tar.gz/.tgz;
.tar.bz2/.tbz2; .tar.xz/.txz; .tar; .gz, with the unrecognized-format
error when no suffix matches. -/
theorem C2_format_detection (path : Name) :
    Archive.detect_format path = FormatDetector_spec path :=
  detect_format_eq_spec path

/-- C3, counterexample to the literal claim: the builder does NOT use the
same suffix patterns as read-side detection.  On a .tbz2 path the read
side detects tar.bz2 but the builder falls through to the zip default,
and likewise on a .gz path (read side: gzip; builder: zip). -/
theorem C3_builder_inference_counterexample :
    Archive.detect_format "a.tbz2".data = Except.ok ArchiveFormat.tar_bz2 ∧
    ArchiveBuilder.detect_format "a.tbz2".data = ArchiveFormat.zip ∧
    Archive.detect_format "a.gz".data = Except.ok ArchiveFormat.gzip ∧
    ArchiveBuilder.detect_format "a.gz".data = ArchiveFormat.zip := by
  decide

/-- C3 (amended): a builder constructed without an explicit format infers
the format from the path suffix case-insensitively and in the read-side
precedence order, but only through the patterns .zip; .tar.gz/.tgz;
.tar.bz2; .tar.xz; .tar — the .tbz2, .txz and .gz patterns of the read
side are absent — and defaults to zip when none of those match. -/
theorem C3_builder_inference (path : Name) :
    ArchiveBuilder.detect_format path = BuilderDetector_spec path :=
  builder_detect_eq_spec path

/-- C7: list on an Archive whose format is plain gzip returns the empty
sequence, whatever is on disk: neither an error nor a synthetic entry. -/
theorem C7_gzip_list_empty (a : Archive) (disk : DiskFile)
    (h : a.format = ArchiveFormat.gzip) :
    a.list disk = Except.ok [] := by
  unfold Archive.list
  rw [h]
  rfl

/-- C7, witness at a concrete gzip archive. -/
theorem C7_gzip_list_empty_witness :
    Archive.list { path := "x.gz".data, format := ArchiveFormat.gzip }
      (DiskFile.gzipData [1, 2]) = Except.ok [] :=
  C7_gzip_list_empty { path := "x.gz".data, format := ArchiveFormat.gzip }
    (DiskFile.gzipData [1, 2]) rfl

/-- C9: a builder with the explicit gzip format takes the non-zip branch
of build with the plain "w" mode, so the target path receives an
UNCOMPRESSED TAR container holding the queued entries — not a
gzip-compressed stream. -/
theorem C9_gzip_format_builds_tar (path : Name) (fs : FS) (now : Nat)
    (payloads : List (ByteSeq × Name)) :
    fsRead (((payloads.foldl (fun acc p => acc.add_bytes p.1 p.2)
        (ArchiveBuilder.make path (some ArchiveFormat.gzip))).build fs now).1) path =
      some (DiskFile.tarData TarComp.plain (payloads.map tarBuiltEntry)) := by
  rw [foldl_add_bytes]
  have hmk : ArchiveBuilder.make path (some ArchiveFormat.gzip) =
      { path := path, format := ArchiveFormat.gzip, files := ([] : List BuildSrc) } := rfl
  rw [hmk]
  simp only [List.nil_append]
  simp [ArchiveBuilder.build, tarWriteEntries_bytes, ArchiveBuilder.buildComp,
    fsRead_fsWrite_self]

/-- C10: extract with an empty (but present) members list is the same
call, result and effects, as extract with members omitted: everything is
extracted, because the empty list is falsy in Python. -/
theorem C10_empty_members_extracts_all (a : Archive) (disk : DiskFile) (dest : Name) :
    a.extract disk dest (some []) = a.extract disk dest Option.none := by
  rfl

/-- C4, counterexample to the literal claim: a member name absent from a
zip archive makes read fail with the propagated collaborator KeyError,
not with the facade "cannot read" ArchiveError the claim requires. -/
theorem C4_read_errors_counterexample :
    Archive.read { path := "a.zip".data, format := ArchiveFormat.zip } (DiskFile.zipData [])
      "x".data = Except.error (ArchiveOpError.keyError "x".data) ∧
    (Except.error (ArchiveOpError.keyError "x".data) : Except ArchiveOpError ByteSeq) ≠
      Except.error (ArchiveOpError.cannotRead "x".data) := by
  decide

/-- C4 (amended): read error behaviour as the code has it.  For zip: a
missing name fails with the collaborator KeyError, and any found entry
(directory entries included) returns its stored bytes rather than
failing.  For the tar variants: a missing name fails with KeyError, and a
found entry that is not a regular file fails with the "cannot read"
ArchiveError.  For plain gzip: read is rejected with "cannot read" for
every name. -/
theorem C4_read_errors (p : Name) :
    (∀ es nm, zipGetinfo es nm = Option.none →
      Archive.read { path := p, format := ArchiveFormat.zip } (DiskFile.zipData es) nm =
        Except.error (ArchiveOpError.keyError nm)) ∧
    (∀ es nm e, zipGetinfo es nm = some e →
      Archive.read { path := p, format := ArchiveFormat.zip } (DiskFile.zipData es) nm =
        Except.ok e.content) ∧
    (∀ fmt disk es nm, isTarFormat fmt = true →
      tarOpenRead (Archive.tar_mode fmt) disk = Except.ok es →
      tarGetmember es nm = Option.none →
      Archive.read { path := p, format := fmt } disk nm =
        Except.error (ArchiveOpError.keyError nm)) ∧
    (∀ fmt disk es nm m, isTarFormat fmt = true →
      tarOpenRead (Archive.tar_mode fmt) disk = Except.ok es →
      tarGetmember es nm = some m → m.isfile = false →
      Archive.read { path := p, format := fmt } disk nm =
        Except.error (ArchiveOpError.cannotRead nm)) ∧
    (∀ disk nm, Archive.read { path := p, format := ArchiveFormat.gzip } disk nm =
      Except.error (ArchiveOpError.cannotRead nm)) := by
  refine ⟨?_, ?_, ?_, ?_, ?_⟩
  · intro es nm h
    simp [Archive.read, zipOpenRead, h]
  · intro es nm e h
    simp [Archive.read, zipOpenRead, h]
  · intro fmt disk es nm ht hop hg
    have hnz : fmt ≠ ArchiveFormat.zip := by
      intro hh
      rw [hh] at ht
      simp [isTarFormat] at ht
    simp [Archive.read, hnz, ht, hop, hg]
  · intro fmt disk es nm m ht hop hg hfile
    have hnz : fmt ≠ ArchiveFormat.zip := by
      intro hh
      rw [hh] at ht
      simp [isTarFormat] at ht
    simp [Archive.read, hnz, ht, hop, hg, hfile]
  · intro disk nm
    rfl

/-- C4, witness: every amended branch at a concrete archive. -/
theorem C4_read_errors_witness :
    Archive.read { path := "a.zip".data, format := ArchiveFormat.zip } (DiskFile.zipData [])
      "x".data = Except.error (ArchiveOpError.keyError "x".data) ∧
    Archive.read { path := "a.zip".data, format := ArchiveFormat.zip }
      (DiskFile.zipData [zipBuiltEntry 0 ([7], "m".data)]) "m".data = Except.ok [7] ∧
    Archive.read { path := "a.tar".data, format := ArchiveFormat.tar }
      (DiskFile.tarData TarComp.plain []) "x".data =
      Except.error (ArchiveOpError.keyError "x".data) ∧
    Archive.read { path := "a.tar".data, format := ArchiveFormat.tar }
      (DiskFile.tarData TarComp.plain
        [{ name := "d".data, size := 0, mtime := 0, mode := 0,
           kind := TarKind.directory, content := [] }]) "d".data =
      Except.error (ArchiveOpError.cannotRead "d".data) ∧
    Archive.read { path := "x.gz".data, format := ArchiveFormat.gzip } (DiskFile.gzipData [])
      "x".data = Except.error (ArchiveOpError.cannotRead "x".data) :=
  ⟨(C4_read_errors "a.zip".data).1 [] "x".data (by decide),
   (C4_read_errors "a.zip".data).2.1 [zipBuiltEntry 0 ([7], "m".data)] "m".data
     (zipBuiltEntry 0 ([7], "m".data)) (by decide),
   (C4_read_errors "a.tar".data).2.2.1 ArchiveFormat.tar (DiskFile.tarData TarComp.plain [])
     [] "x".data (by decide) (by decide) (by decide),
   (C4_read_errors "a.tar".data).2.2.2.1 ArchiveFormat.tar
     (DiskFile.tarData TarComp.plain
       [{ name := "d".data, size := 0, mtime := 0, mode := 0,
          kind := TarKind.directory, content := [] }])
     [{ name := "d".data, size := 0, mtime := 0, mode := 0,
        kind := TarKind.directory, content := [] }]
     "d".data
     { name := "d".data, size := 0, mtime := 0, mode := 0,
       kind := TarKind.directory, content := [] }
     (by decide) (by decide) (by decide) (by decide),
   (C4_read_errors "x.gz".data).2.2.2.2 (DiskFile.gzipData []) "x".data⟩

/-- C5: extract with no members argument returns one path per listed
entry for the container formats, and exactly one path for plain gzip. -/
theorem C5_extract_counts (a : Archive) (disk : DiskFile) (dest : Name) :
    (∀ es, a.format = ArchiveFormat.zip → disk = DiskFile.zipData es →
      ∃ ps ents, (a.extract disk dest Option.none).1 = Except.ok ps ∧
        a.list disk = Except.ok ents ∧ ps.length = ents.length) ∧
    (∀ es, isTarFormat a.format = true →
      tarOpenRead (Archive.tar_mode a.format) disk = Except.ok es →
      ∃ ps ents, (a.extract disk dest Option.none).1 = Except.ok ps ∧
        a.list disk = Except.ok ents ∧ ps.length = ents.length) ∧
    (∀ payload, a.format = ArchiveFormat.gzip → disk = DiskFile.gzipData payload →
      ∃ pth, (a.extract disk dest Option.none).1 = Except.ok [pth]) := by
  refine ⟨?_, ?_, ?_⟩
  · intro es hf hd
    subst hd
    refine ⟨es.map (fun e => joinPath dest e.filename),
      es.map (fun i =>
        { name := i.filename, size := i.file_size, compressed_size := i.compress_size,
          modified := some i.date_time, is_dir := i.is_dir, is_file := !i.is_dir,
          mode := 0 }), ?_, ?_, ?_⟩
    · simp [Archive.extract, hf, pyTruthy, zipOpenRead, zipExtractAll]
    · simp [Archive.list, hf, zipOpenRead]
    · simp
  · intro es ht hop
    have hnz : a.format ≠ ArchiveFormat.zip := by
      intro hh
      rw [hh] at ht
      simp [isTarFormat] at ht
    refine ⟨es.map (fun e => joinPath dest e.name),
      es.map (fun i =>
        { name := i.name, size := i.size, compressed_size := 0,
          modified := some i.mtime, is_dir := i.isdir, is_file := i.isfile,
          mode := i.mode }), ?_, ?_, ?_⟩
    · simp [Archive.extract, hnz, ht, hop, pyTruthy, tarExtractAll]
    · simp [Archive.list, hnz, ht, hop]
    · simp
  · intro payload hf hd
    subst hd
    refine ⟨joinPath dest (stem a.path), ?_⟩
    simp [Archive.extract, hf, isTarFormat]

/-- C5, witness: concrete two-entry zip, one-entry tar.gz, and gzip. -/
theorem C5_extract_counts_witness :
    (∃ ps ents,
      (Archive.extract { path := "a.zip".data, format := ArchiveFormat.zip }
        (DiskFile.zipData [zipBuiltEntry 0 ([1], "m".data), zipBuiltEntry 0 ([2, 3], "n".data)])
        "d".data Option.none).1 = Except.ok ps ∧
      Archive.list { path := "a.zip".data, format := ArchiveFormat.zip }
        (DiskFile.zipData [zipBuiltEntry 0 ([1], "m".data), zipBuiltEntry 0 ([2, 3], "n".data)]) =
        Except.ok ents ∧
      ps.length = ents.length) ∧
    (∃ ps ents,
      (Archive.extract { path := "a.tar.gz".data, format := ArchiveFormat.tar_gz }
        (DiskFile.tarData TarComp.gz [tarBuiltEntry ([9], "t".data)])
        "d".data Option.none).1 = Except.ok ps ∧
      Archive.list { path := "a.tar.gz".data, format := ArchiveFormat.tar_gz }
        (DiskFile.tarData TarComp.gz [tarBuiltEntry ([9], "t".data)]) = Except.ok ents ∧
      ps.length = ents.length) ∧
    (∃ pth,
      (Archive.extract { path := "x.gz".data, format := ArchiveFormat.gzip }
        (DiskFile.gzipData [5, 6]) "d".data Option.none).1 = Except.ok [pth]) :=
  ⟨(C5_extract_counts { path := "a.zip".data, format := ArchiveFormat.zip }
      (DiskFile.zipData [zipBuiltEntry 0 ([1], "m".data), zipBuiltEntry 0 ([2, 3], "n".data)])
      "d".data).1
      [zipBuiltEntry 0 ([1], "m".data), zipBuiltEntry 0 ([2, 3], "n".data)] rfl rfl,
   (C5_extract_counts { path := "a.tar.gz".data, format := ArchiveFormat.tar_gz }
      (DiskFile.tarData TarComp.gz [tarBuiltEntry ([9], "t".data)]) "d".data).2.1
      [tarBuiltEntry ([9], "t".data)] (by decide) (by decide),
   (C5_extract_counts { path := "x.gz".data, format := ArchiveFormat.gzip }
      (DiskFile.gzipData [5, 6]) "d".data).2.2 [5, 6] rfl rfl⟩

/-- Atomicity of the member extraction loop around one missing member:
the call fails with a member-not-found error, no effect touches the
missing member, and no file write (including the leading mkdir of the
destination) touches a path q outside the written member paths. -/
lemma extractLoop_atomicity {α : Type} (getm : Name → Option α) (toOp : Name → α → FsOp)
    (dest : Name) (ms : List Name) (nm : Name)
    (hshape : ∀ m e, (∃ c, toOp m e = FsOp.mkFile (joinPath dest m) c) ∨
      toOp m e = FsOp.mkDir (joinPath dest m))
    (hmem : nm ∈ ms) (hmiss : getm nm = Option.none)
    (q : Name) (hsafe : ∀ m ∈ ms, joinPath dest m ≠ q) (fs : FS) :
    (∃ m, (extractLoop getm toOp dest ms).1 = Except.error (ArchiveOpError.keyError m)) ∧
    (∀ c, FsOp.mkFile (joinPath dest nm) c ∉
      FsOp.mkDir dest :: (extractLoop getm toOp dest ms).2) ∧
    FsOp.mkDir (joinPath dest nm) ∉ FsOp.mkDir dest :: (extractLoop getm toOp dest ms).2 ∧
    fsRead (applyOps fs (FsOp.mkDir dest :: (extractLoop getm toOp dest ms).2)) q =
      fsRead fs q := by
  refine ⟨?_, ?_, ?_, ?_⟩
  · obtain ⟨m, h, _⟩ := extractLoop_error_of_missing getm toOp dest ms nm hmem hmiss
    exact ⟨m, h⟩
  · intro c hc
    rcases List.mem_cons.mp hc with h | h
    · cases h
    · obtain ⟨m1, e1, hm1, hg1, heq⟩ := extractLoop_ops getm toOp dest ms _ h
      rcases hshape m1 e1 with ⟨c1, hop⟩ | hop
      · rw [hop] at heq
        have hpaths : joinPath dest nm = joinPath dest m1 := by
          injection heq
        have : nm = m1 := joinPath_inj dest nm m1 hpaths
        rw [← this] at hg1
        rw [hmiss] at hg1
        cases hg1
      · rw [hop] at heq
        cases heq
  · intro hc
    rcases List.mem_cons.mp hc with h | h
    · have : joinPath dest nm = dest := by injection h
      exact joinPath_ne_dest dest nm this
    · obtain ⟨m1, e1, hm1, hg1, heq⟩ := extractLoop_ops getm toOp dest ms _ h
      rcases hshape m1 e1 with ⟨c1, hop⟩ | hop
      · rw [hop] at heq
        cases heq
      · rw [hop] at heq
        have hpaths : joinPath dest nm = joinPath dest m1 := by
          injection heq
        have : nm = m1 := joinPath_inj dest nm m1 hpaths
        rw [← this] at hg1
        rw [hmiss] at hg1
        cases hg1
  · apply fsRead_applyOps_of_no_write
    intro p c hc
    rcases List.mem_cons.mp hc with h | h
    · cases h
    · obtain ⟨m1, e1, hm1, hg1, heq⟩ := extractLoop_ops getm toOp dest ms _ h
      rcases hshape m1 e1 with ⟨c1, hop⟩ | hop
      · rw [hop] at heq
        injection heq with hp hc2
        subst hp
        exact hsafe m1 hm1
      · rw [hop] at heq
        cases heq

/-- C6: extracting with a members list containing a name that does not
exist in a container archive fails with a member-not-found error, writes
neither a file nor a directory for that member, and leaves the archive
file itself unchanged on disk (provided the destination paths of the
requested members do not collide with the archive path, as when the
archive does not live inside the extraction destination). -/
theorem C6_member_not_found_atomicity (a : Archive) (disk : DiskFile) (dest : Name)
    (fs : FS) (ms : List Name) (nm : Name) (names : List Name)
    (hnames : diskMemberNames a disk = some names)
    (hmiss : nm ∉ names)
    (hmem : nm ∈ ms)
    (hdisk : fsRead fs a.path = some disk)
    (hsafe : ∀ m ∈ ms, joinPath dest m ≠ a.path) :
    (∃ m, (a.extract disk dest (some ms)).1 = Except.error (ArchiveOpError.keyError m)) ∧
    (∀ c, FsOp.mkFile (joinPath dest nm) c ∉ (a.extract disk dest (some ms)).2) ∧
    FsOp.mkDir (joinPath dest nm) ∉ (a.extract disk dest (some ms)).2 ∧
    fsRead (applyOps fs (a.extract disk dest (some ms)).2) a.path = some disk := by
  have htruthy : pyTruthy (some ms) = true := by
    cases ms with
    | nil => cases hmem
    | cons x xs => rfl
  by_cases hz : a.format = ArchiveFormat.zip
  · unfold diskMemberNames at hnames
    rw [if_pos hz] at hnames
    cases disk with
    | zipData es =>
      have hnames2 : es.map ZipEntry.filename = names := by
        simpa using hnames
      have hg : zipGetinfo es nm = Option.none := by
        apply lastMatching_eq_none
        intro e he hk
        apply hmiss
        rw [← hnames2, ← hk]
        exact List.mem_map_of_mem _ he
      have hext : a.extract (DiskFile.zipData es) dest (some ms) =
          ((extractLoop (zipGetinfo es) (zipMemberOp dest) dest ms).1,
           FsOp.mkDir dest :: (extractLoop (zipGetinfo es) (zipMemberOp dest) dest ms).2) := by
        simp [Archive.extract, hz, htruthy, zipOpenRead]
      rw [hext]
      have hshape : ∀ m e, (∃ c, zipMemberOp dest m e = FsOp.mkFile (joinPath dest m) c) ∨
          zipMemberOp dest m e = FsOp.mkDir (joinPath dest m) := by
        intro m e
        unfold zipMemberOp
        by_cases hd : e.is_dir = true
        · right
          rw [if_pos hd]
        · left
          exact ⟨e.content, by rw [if_neg hd]⟩
      obtain ⟨h1, h2, h3, h4⟩ := extractLoop_atomicity (zipGetinfo es) (zipMemberOp dest)
        dest ms nm hshape hmem hg a.path hsafe fs
      exact ⟨h1, h2, h3, by rw [h4]; exact hdisk⟩
    | tarData c es => simp at hnames
    | gzipData p => simp at hnames
    | rawData c => simp at hnames
  · unfold diskMemberNames at hnames
    rw [if_neg hz] at hnames
    by_cases ht : isTarFormat a.format = true
    · rw [if_pos ht] at hnames
      cases hop : tarOpenRead (Archive.tar_mode a.format) disk with
      | error e => rw [hop] at hnames; cases hnames
      | ok es =>
        rw [hop] at hnames
        have hnames2 : es.map TarInfo.name = names := by
          simpa using hnames
        have hg : tarGetmember es nm = Option.none := by
          apply lastMatching_eq_none
          intro e he hk
          apply hmiss
          rw [← hnames2, ← hk]
          exact List.mem_map_of_mem _ he
        have hext : a.extract disk dest (some ms) =
            ((extractLoop (tarGetmember es) (tarMemberOp dest) dest ms).1,
             FsOp.mkDir dest :: (extractLoop (tarGetmember es) (tarMemberOp dest) dest ms).2) := by
          simp [Archive.extract, hz, ht, hop, htruthy]
        rw [hext]
        have hshape : ∀ m e, (∃ c, tarMemberOp dest m e = FsOp.mkFile (joinPath dest m) c) ∨
            tarMemberOp dest m e = FsOp.mkDir (joinPath dest m) := by
          intro m e
          unfold tarMemberOp
          cases e.kind with
          | regular => exact Or.inl ⟨e.content, rfl⟩
          | directory => exact Or.inr rfl
          | other => exact Or.inr rfl
        obtain ⟨h1, h2, h3, h4⟩ := extractLoop_atomicity (tarGetmember es) (tarMemberOp dest)
          dest ms nm hshape hmem hg a.path hsafe fs
        exact ⟨h1, h2, h3, by rw [h4]; exact hdisk⟩
    · rw [if_neg ht] at hnames
      cases hnames

/-- C6, witness: concrete one-entry zip archive and a missing name. -/
theorem C6_member_not_found_atomicity_witness :
    (∃ m, (Archive.extract { path := "a.zip".data, format := ArchiveFormat.zip }
      (DiskFile.zipData [zipBuiltEntry 0 ([1], "m".data)]) "d".data
      (some ["x".data])).1 = Except.error (ArchiveOpError.keyError m)) ∧
    (∀ c, FsOp.mkFile (joinPath "d".data "x".data) c ∉
      (Archive.extract { path := "a.zip".data, format := ArchiveFormat.zip }
        (DiskFile.zipData [zipBuiltEntry 0 ([1], "m".data)]) "d".data
        (some ["x".data])).2) ∧
    FsOp.mkDir (joinPath "d".data "x".data) ∉
      (Archive.extract { path := "a.zip".data, format := ArchiveFormat.zip }
        (DiskFile.zipData [zipBuiltEntry 0 ([1], "m".data)]) "d".data
        (some ["x".data])).2 ∧
    fsRead (applyOps [("a.zip".data, DiskFile.zipData [zipBuiltEntry 0 ([1], "m".data)])]
        (Archive.extract { path := "a.zip".data, format := ArchiveFormat.zip }
          (DiskFile.zipData [zipBuiltEntry 0 ([1], "m".data)]) "d".data
          (some ["x".data])).2) "a.zip".data =
      some (DiskFile.zipData [zipBuiltEntry 0 ([1], "m".data)]) :=
  C6_member_not_found_atomicity { path := "a.zip".data, format := ArchiveFormat.zip }
    (DiskFile.zipData [zipBuiltEntry 0 ([1], "m".data)]) "d".data
    [("a.zip".data, DiskFile.zipData [zipBuiltEntry 0 ([1], "m".data)])]
    ["x".data] "x".data ["m".data]
    (by decide) (by decide) (by decide) (by decide) (by decide)

/-- C8: a builder over a path with no recognizable suffix defaults to the
zip format, and build writes the COMPLETE zip archive to the target path
and only then fails with the unrecognized-format error raised while
constructing the returned Archive. -/
theorem C8_build_unrecognized_path (path : Name) (fs : FS) (now : Nat)
    (payloads : List (ByteSeq × Name)) (e0 : ArchiveOpError)
    (hdet : Archive.detect_format path = Except.error e0) :
    (payloads.foldl (fun acc p => acc.add_bytes p.1 p.2)
      (ArchiveBuilder.make path Option.none)).format = ArchiveFormat.zip ∧
    fsRead (((payloads.foldl (fun acc p => acc.add_bytes p.1 p.2)
        (ArchiveBuilder.make path Option.none)).build fs now).1) path =
      some (DiskFile.zipData (payloads.map (zipBuiltEntry now))) ∧
    ((payloads.foldl (fun acc p => acc.add_bytes p.1 p.2)
        (ArchiveBuilder.make path Option.none)).build fs now).2 = Except.error e0 := by
  have hbd := builder_detect_eq_zip_of_read_error path e0 hdet
  have hmk : ArchiveBuilder.make path Option.none =
      { path := path, format := ArchiveBuilder.detect_format path,
        files := ([] : List BuildSrc) } := rfl
  rw [foldl_add_bytes, hmk, hbd]
  simp only [List.nil_append]
  refine ⟨?_, ?_, ?_⟩
  · trivial
  · simp [ArchiveBuilder.build, zipWriteEntries_bytes, fsRead_fsWrite_self]
  · simp [ArchiveBuilder.build, zipWriteEntries_bytes, Archive.make, hdet, Except.map]

/-- C8, witness: a .dat path with one queued payload. -/
theorem C8_build_unrecognized_path_witness :
    ([(([1] : ByteSeq), "f".data)].foldl (fun acc p => acc.add_bytes p.1 p.2)
      (ArchiveBuilder.make "weird.dat".data Option.none)).format = ArchiveFormat.zip ∧
    fsRead ((([(([1] : ByteSeq), "f".data)].foldl (fun acc p => acc.add_bytes p.1 p.2)
        (ArchiveBuilder.make "weird.dat".data Option.none)).build [] 3).1) "weird.dat".data =
      some (DiskFile.zipData ([([1], "f".data)].map (zipBuiltEntry 3))) ∧
    (([(([1] : ByteSeq), "f".data)].foldl (fun acc p => acc.add_bytes p.1 p.2)
        (ArchiveBuilder.make "weird.dat".data Option.none)).build [] 3).2 =
      Except.error (ArchiveOpError.unknownFormat "weird.dat".data) :=
  C8_build_unrecognized_path "weird.dat".data [] 3 [([1], "f".data)]
    (ArchiveOpError.unknownFormat "weird.dat".data) (by decide)

end RoadArchive
